import Mathlib

/-
  Verification of the alx-polly polling application's validation,
  authorization, poll-action and middleware pipeline.

  The definitions below are a shallow embedding of the TypeScript source:

  - `app/lib/validations/schemas.ts` : `sanitizeHtml`, `sanitizeArray`, the
    zod schemas (`createPollSchema`, `updatePollSchema`, `submitVoteSchema`,
    `uuidSchema`) modelled as executable validators returning the first
    error message exactly as zod's `safeParse` would surface it;
  - `app/lib/actions/auth-actions.ts` : `isUserAdmin`;
  - `app/lib/actions/poll-actions.ts` : `createPoll`, `updatePoll`,
    `deletePoll`, `submitVote` — the external Supabase store is modelled as
    an explicit `DB` value (lists of poll and vote rows) threaded through
    each action, and the current session as an `AuthEnv` oracle;
  - `lib/supabase/middleware.ts` : `checkRateLimit`, `securityHeaders`,
    `addSecurityHeaders`, `updateSession` — the rate-limit `Map` is
    modelled as an explicit store, HTTP responses as a record of the
    fields the middleware manipulates.

  JavaScript strings are modelled as Lean `String` (lists of unicode
  scalars); `trim` / `toLowerCase` are modelled explicitly below rather
  than with Lean's built-ins so that they follow the JS semantics used by
  the source (`toLowerCase` on the ASCII fragment exercised by the code).
-/

namespace AlxPolly

/-- Characters removed by JavaScript `String.prototype.trim`
(WhiteSpace and LineTerminator code points). -/
def isJsWhitespace (c : Char) : Bool :=
  c.toNat = 32 || c.toNat = 9 || c.toNat = 10 || c.toNat = 13 ||
  c.toNat = 11 || c.toNat = 12 || c.toNat = 160 || c.toNat = 0x1680 ||
  (0x2000 ≤ c.toNat && c.toNat ≤ 0x200A) || c.toNat = 0x2028 ||
  c.toNat = 0x2029 || c.toNat = 0x202F || c.toNat = 0x205F ||
  c.toNat = 0x3000 || c.toNat = 0xFEFF

/-- Model of JS `s.trim()` on the character list: strip leading and
trailing whitespace. -/
def trimChars (l : List Char) : List Char :=
  (l.dropWhile isJsWhitespace).rdropWhile isJsWhitespace

/-- Model of JS `String.prototype.trim`. -/
def jsTrim (s : String) : String :=
  ⟨trimChars s.data⟩

/-- Model of JS `String.prototype.toLowerCase` on the ASCII fragment:
maps A–Z to a–z and leaves everything else unchanged. -/
def lowerChar (c : Char) : Char :=
  if 65 ≤ c.toNat && c.toNat ≤ 90 then Char.ofNat (c.toNat + 32) else c

/-- Model of JS `s.toLowerCase()`. -/
def lowerStr (s : String) : String :=
  ⟨s.data.map lowerChar⟩

/-- The escape map of `sanitizeHtml` in `schemas.ts`: each of the five
special characters is replaced by its HTML entity, every other character
is kept. -/
def escapeChar (c : Char) : List Char :=
  if c = Char.ofNat 60 then "&lt;".data          -- <
  else if c = Char.ofNat 62 then "&gt;".data     -- >
  else if c = Char.ofNat 34 then "&quot;".data   -- double quote
  else if c = Char.ofNat 39 then "&#x27;".data   -- single quote
  else if c = Char.ofNat 38 then "&amp;".data    -- &
  else [c]

/-- `sanitizeHtml` from `schemas.ts`: `input.replace(/[<>"'&]/g, ...).trim()`. -/
def sanitizeHtml (s : String) : String :=
  ⟨trimChars ((s.data.map escapeChar).flatten)⟩

/-- `sanitizeArray` from `schemas.ts`:
`arr.map(item => sanitizeHtml(item)).filter(item => item.length > 0)`. -/
def sanitizeArray (arr : List String) : List String :=
  (arr.map sanitizeHtml).filter (fun item => item.length != 0)

/-- Hex digit as accepted by zod's uuid regex (case-insensitive). -/
def isHexDigit (c : Char) : Bool :=
  (48 ≤ c.toNat && c.toNat ≤ 57) ||
  (97 ≤ c.toNat && c.toNat ≤ 102) ||
  (65 ≤ c.toNat && c.toNat ≤ 70)

/-- Model of zod's `uuidSchema` test: 36 characters in five hex groups
8-4-4-4-12 separated by dashes (positions 8, 13, 18, 23). -/
def isUuid (s : String) : Bool :=
  let l := s.data
  l.length == 36 &&
  (List.range 36).all fun i =>
    if i == 8 || i == 13 || i == 18 || i == 23 then
      l.getD i (Char.ofNat 32) == Char.ofNat 45
    else
      isHexDigit (l.getD i (Char.ofNat 32))

/-- The `question` field of `createPollSchema`: zod checks run in chain
order (`min 1`, `min 5`, `max 500`), then the `trim` transform, then the
non-whitespace refinement on the trimmed value; the parsed datum is the
trimmed question. -/
def validateCreateQuestion (q : String) : Except String String :=
  if q.length < 1 then .error "Question is required"
  else if q.length < 5 then .error "Question must be at least 5 characters"
  else if 500 < q.length then .error "Question must be less than 500 characters"
  else if (jsTrim q).length = 0 then .error "Question cannot be only whitespace"
  else .ok (jsTrim q)

/-- The `question` field of `updatePollSchema`; unlike the create schema it
has no whitespace-only refinement after the `trim` transform. -/
def validateUpdateQuestion (q : String) : Except String String :=
  if q.length < 1 then .error "Question is required"
  else if q.length < 5 then .error "Question must be at least 5 characters"
  else if 500 < q.length then .error "Question must be less than 500 characters"
  else .ok (jsTrim q)

/-- `pollOptionSchema`: `min 1`, `max 200`, `trim` transform, then the
non-whitespace refinement; the parsed datum is the trimmed option. -/
def validateOption (o : String) : Except String String :=
  if o.length < 1 then .error "Option cannot be empty"
  else if 200 < o.length then .error "Option must be less than 200 characters"
  else if (jsTrim o).length = 0 then .error "Option cannot be only whitespace"
  else .ok (jsTrim o)

/-- Element-wise parsing of the options array, returning the first failing
element's message, as zod does after the array-length checks. -/
def validateOptionsList : List String → Except String (List String)
  | [] => .ok []
  | o :: os =>
    match validateOption o with
    | .error m => .error m
    | .ok t =>
      match validateOptionsList os with
      | .error m => .error m
      | .ok ts => .ok (t :: ts)

/-- The key used by the uniqueness refinement of the poll schemas:
`opt.toLowerCase().trim()`. -/
def optionKey (o : String) : String :=
  jsTrim (lowerStr o)

/-- The `options` field of `createPollSchema` / `updatePollSchema`: zod
emits the array `min 2` / `max 10` issues before element issues, and the
case-insensitive uniqueness refinement (`Set` size comparison) runs last,
on the parsed (trimmed) elements. -/
def validateOptions (os : List String) : Except String (List String) :=
  if os.length < 2 then .error "At least 2 options are required"
  else if 10 < os.length then .error "Maximum 10 options allowed"
  else
    match validateOptionsList os with
    | .error m => .error m
    | .ok ts =>
      if ((ts.map optionKey).dedup).length = ts.length then .ok ts
      else .error "All options must be unique"

/-- Parsed result of `createPollSchema`. -/
structure CreatePollData where
  question : String
  options : List String
  allowMultipleVotes : Bool
  requireAuthentication : Bool
deriving DecidableEq

/-- The raw record decoded from the poll form (`validateFormData` turns
the `FormData` into this shape before `safeParse`); the two optional
booleans are absent when the form did not post them. -/
structure RawPollInput where
  question : String
  options : List String
  allowMultipleVotes : Option Bool
  requireAuthentication : Option Bool
deriving DecidableEq

/-- `createPollSchema.safeParse`: field issues surface in shape order
(question before options); the optional booleans default to `false` and
`true` respectively. -/
def validateCreatePoll (raw : RawPollInput) : Except String CreatePollData :=
  match validateCreateQuestion raw.question with
  | .error m => .error m
  | .ok q =>
    match validateOptions raw.options with
    | .error m => .error m
    | .ok os =>
      .ok ⟨q, os, raw.allowMultipleVotes.getD false,
           raw.requireAuthentication.getD true⟩

/-- A `FormData` object is an ordered list of (key, value) entries; the
same key may repeat (`options[]` does). -/
def FormEntries : Type := List (String × String)

/-- `FormData.set(k, v)`: replace the value of the first entry with key
`k` and remove every later entry with that key, or append a new entry if
the key is absent. The `found` flag records whether the key was seen. -/
def setEntryGo (k v : String) : List (String × String) → Bool →
    List (String × String)
  | [], found => if found then [] else [(k, v)]
  | p :: ps, found =>
    if p.1 = k then
      if found then setEntryGo k v ps true
      else (k, v) :: setEntryGo k v ps true
    else p :: setEntryGo k v ps found

def setEntry (fd : FormEntries) (k v : String) : FormEntries :=
  setEntryGo k v fd false

/-- The copy loop of `updatePoll` (auth-actions.ts:668-670):
`for (const [key, value] of formData.entries()) formDataWithId.set(key, value)`.
Because `set` replaces rather than appends, repeated keys — in particular
the `options[]` entries — collapse to their last value. -/
def setEntries (init : FormEntries) (entries : FormEntries) : FormEntries :=
  entries.foldl (fun fd e => setEntry fd e.1 e.2) init

/-- A value of the `rawData` object built by `validateFormData`: a string
field, an aggregated `key[]` array, or one of the two boolean fields. -/
inductive FormValue
  | str : String → FormValue
  | arr : List String → FormValue
  | toggle : Bool → FormValue
deriving DecidableEq

/-- Read `rawData[k]`. -/
def rawGet (raw : List (String × FormValue)) (k : String) : Option FormValue :=
  (raw.find? (fun p => p.1 == k)).map (fun p => p.2)

/-- Write `rawData[k] = v`. -/
def rawSet (raw : List (String × FormValue)) (k : String) (v : FormValue) :
    List (String × FormValue) :=
  if raw.any (fun p => p.1 == k) then
    raw.map (fun p => if p.1 = k then (k, v) else p)
  else raw ++ [(k, v)]

/-- `key.endsWith('[]')`. -/
def endsWithBrackets (key : String) : Bool :=
  key.data.reverse.take 2 == [Char.ofNat 93, Char.ofNat 91]

/-- `key.slice(0, -2)`. -/
def stripBrackets (key : String) : String :=
  ⟨key.data.dropLast.dropLast⟩

/-- One iteration of `validateFormData`'s FormData-to-object loop. A
`key[]` entry pushes onto `rawData[key]`: the JS code only resets the slot
to `[]` when it is falsy, so pushing onto an existing truthy non-array
(a non-empty string, or `true`) throws — modelled as `none`, caught by the
surrounding try/catch. The two boolean field names decode
`value === 'true' || value === 'on'`; every other key stores the string. -/
def decodeStep (raw : List (String × FormValue)) (key value : String) :
    Option (List (String × FormValue)) :=
  if endsWithBrackets key then
    let arrayKey := stripBrackets key
    match rawGet raw arrayKey with
    | some (.arr l) => some (rawSet raw arrayKey (.arr (l ++ [value])))
    | some (.str s) =>
      if s = "" then some (rawSet raw arrayKey (.arr [value])) else none
    | some (.toggle b) =>
      if b then none else some (rawSet raw arrayKey (.arr [value]))
    | none => some (rawSet raw arrayKey (.arr [value]))
  else if key = "allowMultipleVotes" ∨ key = "requireAuthentication" then
    some (rawSet raw key (.toggle (value = "true" ∨ value = "on")))
  else
    some (rawSet raw key (.str value))

/-- The full FormData-to-object conversion of `validateFormData`. -/
def decodeEntries : FormEntries → List (String × FormValue) →
    Option (List (String × FormValue))
  | [], raw => some raw
  | e :: es, raw =>
    match decodeStep raw e.1 e.2 with
    | none => none
    | some raw' => decodeEntries es raw'

/-- zod `z.string()` on an object field: `"Required"` when absent, an
invalid-type message when present with the wrong shape. -/
def fieldString (v : Option FormValue) : Except String String :=
  match v with
  | none => .error "Required"
  | some (.str s) => .ok s
  | some (.arr _) => .error "Expected string, received array"
  | some (.toggle _) => .error "Expected string, received boolean"

/-- zod `z.array(...)` on an object field. -/
def fieldArray (v : Option FormValue) : Except String (List String) :=
  match v with
  | none => .error "Required"
  | some (.arr l) => .ok l
  | some (.str _) => .error "Expected array, received string"
  | some (.toggle _) => .error "Expected array, received boolean"

/-- `updatePollSchema.safeParse(rawData)`: fields in shape order — pollId
(string, uuid refinement), question (string, `min 1`/`min 5`/`max 500`,
trim), options (array `min 2`/`max 10`, element schema, uniqueness
refinement). -/
def validateUpdatePollRaw (raw : List (String × FormValue)) :
    Except String (String × List String) :=
  match fieldString (rawGet raw "pollId") with
  | .error m => .error m
  | .ok pid =>
    if isUuid pid = false then .error "Invalid poll ID format"
    else
      match fieldString (rawGet raw "question") with
      | .error m => .error m
      | .ok q0 =>
        match validateUpdateQuestion q0 with
        | .error m => .error m
        | .ok q =>
          match fieldArray (rawGet raw "options") with
          | .error m => .error m
          | .ok os0 =>
            match validateOptions os0 with
            | .error m => .error m
            | .ok os => .ok (q, os)

/-- `validateFormData(updatePollSchema, formDataWithId)`: decode the form
entries (the try/catch maps a decode exception to the single message
`"Invalid form data"`), then run the schema. -/
def validateUpdatePollForm (entries : FormEntries) :
    Except String (String × List String) :=
  match decodeEntries entries [] with
  | none => .error "Invalid form data"
  | some raw => validateUpdatePollRaw raw

/-- `submitVoteSchema.safeParse {pollId, optionIndex}`: pollId uuid check,
then the integer bounds on optionIndex (`min 0`, `max 9`); returns the
first error message, or `none` when the payload is valid. -/
def validateSubmitVote (pollId : String) (optionIndex : Int) : Option String :=
  if isUuid pollId = false then some "Invalid poll ID format"
  else if optionIndex < 0 then some "Option index must be non-negative"
  else if 9 < optionIndex then some "Option index cannot exceed 9"
  else none

/-- A Supabase auth user as the actions see it: the id and the
`user_metadata.is_admin` field (absent, or an explicit boolean). -/
structure AuthUser where
  id : String
  adminMeta : Option Bool
deriving DecidableEq

/-- The ambient session: `supabase.auth.getUser()` / `getCurrentUser()`
both resolve to this user (or `none` when unauthenticated). -/
structure AuthEnv where
  currentUser : Option AuthUser
deriving DecidableEq

/-- The final metadata check of `isUserAdmin`:
`user.user?.user_metadata?.is_admin === true` evaluated against the
current session user. -/
def adminMetaFlag (env : AuthEnv) : Bool :=
  match env.currentUser with
  | some u => u.adminMeta == some true
  | none => false

/-- `isUserAdmin(userId?)` from `auth-actions.ts`. When `userId` is falsy
(absent or empty) it resolves the current user first and returns `false`
if there is none; in every case the actual check reads the **current**
session user's metadata — the `userId` argument is never used afterwards. -/
def isUserAdmin (userId : Option String) (env : AuthEnv) : Bool :=
  if userId = none ∨ userId = some "" then
    match env.currentUser with
    | none => false
    | some _ => adminMetaFlag env
  else
    adminMetaFlag env

/-- A row of the `polls` table. -/
structure Poll where
  id : String
  user_id : String
  question : String
  options : List String
  allow_multiple_votes : Bool
  require_authentication : Bool
  created_at : Nat
  updated_at : Nat
deriving DecidableEq

/-- A row of the `votes` table (`user_id` is null for anonymous votes). -/
structure Vote where
  id : String
  poll_id : String
  user_id : Option String
  option_index : Int
deriving DecidableEq

/-- The external data store the actions talk to. -/
structure DB where
  polls : List Poll
  votes : List Vote
deriving DecidableEq

/-- Supabase `.single()`: the data is the row when the filtered result has
exactly one element, and null (with an error the call sites discard)
otherwise. -/
def single? {α : Type} : List α → Option α
  | [x] => some x
  | _ => none

/-- `createPoll` from `poll-actions.ts`: validate, sanitize, require a
session user, then insert the row. `newId`/`now` stand for the id and
timestamps the store generates. Returns the action's `{error}` value and
the resulting store. -/
def createPoll (raw : RawPollInput) (env : AuthEnv) (newId : String)
    (now : Nat) (db : DB) : Option String × DB :=
  match validateCreatePoll raw with
  | .error msg => (some msg, db)
  | .ok data =>
    let sanitizedQuestion := sanitizeHtml data.question
    let sanitizedOptions := sanitizeArray data.options
    match env.currentUser with
    | none => (some "You must be logged in to create a poll.", db)
    | some u =>
      (none, { db with polls := db.polls ++
        [{ id := newId, user_id := u.id, question := sanitizedQuestion,
           options := sanitizedOptions,
           allow_multiple_votes := data.allowMultipleVotes,
           require_authentication := data.requireAuthentication,
           created_at := now, updated_at := now }] })

/-- `updatePoll` from `poll-actions.ts`: uuid check on the argument, then
the `formDataWithId` copy — `set('pollId', pollId)` followed by the
`set`-based copy loop over the caller's entries (which collapses repeated
keys such as `options[]` to a single entry) — schema validation of the
collapsed form, sanitization, session user, re-fetch of the poll row,
ownership-or-admin check, then the update of question/options/updated_at
(the store operations use the `pollId` argument). -/
def updatePoll (pollId : String) (formData : FormEntries) (env : AuthEnv)
    (now : Nat) (db : DB) : Option String × DB :=
  if isUuid pollId = false then (some "Invalid poll ID format", db)
  else
    match validateUpdatePollForm
        (setEntries (setEntry [] "pollId" pollId) formData) with
    | .error msg => (some msg, db)
    | .ok (q, os) =>
      let sanitizedQuestion := sanitizeHtml q
      let sanitizedOptions := sanitizeArray os
      match env.currentUser with
      | none => (some "You must be logged in to update a poll.", db)
      | some u =>
        match single? (db.polls.filter (fun p => p.id = pollId)) with
        | none => (some "Poll not found", db)
        | some existingPoll =>
          if existingPoll.user_id ≠ u.id ∧ isUserAdmin (some u.id) env = false then
            (some "You can only update your own polls", db)
          else
            (none, { db with polls := db.polls.map fun p =>
              if p.id = pollId then
                { p with question := sanitizedQuestion,
                         options := sanitizedOptions, updated_at := now }
              else p })

/-- `deletePoll` from `poll-actions.ts`: uuid check, session user,
re-fetch of the owner, ownership-or-admin check, then delete the poll's
votes followed by the poll itself. -/
def deletePoll (id : String) (env : AuthEnv) (db : DB) : Option String × DB :=
  if isUuid id = false then (some "Invalid poll ID format", db)
  else
    match env.currentUser with
    | none => (some "You must be logged in to delete a poll", db)
    | some u =>
      match single? (db.polls.filter (fun p => p.id = id)) with
      | none => (some "Poll not found", db)
      | some poll =>
        if poll.user_id ≠ u.id ∧ isUserAdmin (some u.id) env = false then
          (some "You can only delete your own polls", db)
        else
          (none, { polls := db.polls.filter (fun p => p.id ≠ id),
                   votes := db.votes.filter (fun v => v.poll_id ≠ id) })

/-- `submitVote` from `poll-actions.ts`: schema validation, poll fetch,
authentication-requirement check, live option-count check, duplicate-vote
check for authenticated callers, then the insert (null `user_id` for
anonymous voters). -/
def submitVote (pollId : String) (optionIndex : Int) (env : AuthEnv)
    (newVoteId : String) (db : DB) : Option String × DB :=
  match validateSubmitVote pollId optionIndex with
  | some msg => (some msg, db)
  | none =>
    match single? (db.polls.filter (fun p => p.id = pollId)) with
    | none => (some "Poll not found", db)
    | some poll =>
      if poll.require_authentication ∧ env.currentUser = none then
        (some "You must be logged in to vote on this poll", db)
      else if (poll.options.length : Int) ≤ optionIndex then
        (some "Invalid option selected", db)
      else
        let insert : Option String × DB :=
          (none, { db with votes := db.votes ++
            [{ id := newVoteId, poll_id := pollId,
               user_id := env.currentUser.map AuthUser.id,
               option_index := optionIndex }] })
        match env.currentUser with
        | some u =>
          match single? (db.votes.filter
              (fun v => v.poll_id = pollId ∧ v.user_id = some u.id)) with
          | some _ => (some "You have already voted on this poll", db)
          | none => insert
        | none => insert

/-- One entry of the middleware's in-memory rate-limit `Map`. -/
structure RateRecord where
  count : Nat
  resetTime : Nat
deriving DecidableEq

/-- The rate-limit store keyed by client IP. -/
def RateStore : Type := String → Option RateRecord

/-- The store with no entries. -/
def emptyStore : RateStore := fun _ => none

/-- `rateLimitStore.set(ip, r)`. -/
def setRecord (st : RateStore) (ip : String) (r : RateRecord) : RateStore :=
  fun k => if k = ip then some r else st k

/-- `RATE_LIMIT_WINDOW`: 15 minutes in milliseconds. -/
def RATE_LIMIT_WINDOW : Nat := 15 * 60 * 1000

/-- `RATE_LIMIT_MAX_REQUESTS`: max requests per IP per window. -/
def RATE_LIMIT_MAX_REQUESTS : Nat := 100

/-- `checkRateLimit(ip)` from `middleware.ts`, with the current time and
the mutable store made explicit: fresh or expired entries restart the
window with count 1; within the window the request is rejected once the
count has reached the maximum, and counted otherwise. -/
def checkRateLimit (ip : String) (now : Nat) (st : RateStore) :
    Bool × RateStore :=
  match st ip with
  | none => (true, setRecord st ip ⟨1, now + RATE_LIMIT_WINDOW⟩)
  | some record =>
    if record.resetTime < now then
      (true, setRecord st ip ⟨1, now + RATE_LIMIT_WINDOW⟩)
    else if RATE_LIMIT_MAX_REQUESTS ≤ record.count then
      (false, st)
    else
      (true, setRecord st ip ⟨record.count + 1, record.resetTime⟩)

/-- Iterate `checkRateLimit` for one IP over a list of request times,
collecting each verdict. -/
def runRateLimit (ip : String) : List Nat → RateStore → List Bool × RateStore
  | [], st => ([], st)
  | t :: ts, st =>
    let step := checkRateLimit ip t st
    let rest := runRateLimit ip ts step.2
    (step.1 :: rest.1, rest.2)

/-- The `securityHeaders` constant of `middleware.ts`. -/
def securityHeaders : List (String × String) :=
  [("X-Frame-Options", "DENY"),
   ("X-Content-Type-Options", "nosniff"),
   ("Referrer-Policy", "strict-origin-when-cross-origin"),
   ("X-XSS-Protection", "1; mode=block"),
   ("Content-Security-Policy",
    "default-src \x27self\x27; script-src \x27self\x27 \x27unsafe-inline\x27 \x27unsafe-eval\x27; style-src \x27self\x27 \x27unsafe-inline\x27; img-src \x27self\x27 data: https:; font-src \x27self\x27 data:;")]

/-- The slice of a `NextResponse` the middleware manipulates. -/
structure MwResponse where
  status : Nat
  body : Option String
  redirectUrl : Option String
  headers : List (String × String)
  deletedCookies : List String
deriving DecidableEq

/-- `response.headers.set(k, v)`: overwrite an existing header or append. -/
def setHeader (hs : List (String × String)) (k v : String) :
    List (String × String) :=
  if hs.any (fun p => p.1 == k) then
    hs.map (fun p => if p.1 = k then (k, v) else p)
  else hs ++ [(k, v)]

/-- `addSecurityHeaders(response)` from `middleware.ts`. -/
def addSecurityHeaders (r : MwResponse) : MwResponse :=
  { r with headers := securityHeaders.foldl (fun hs p => setHeader hs p.1 p.2) r.headers }

/-- `new NextResponse('Too Many Requests', { status: 429 })`. -/
def tooManyResponse : MwResponse :=
  { status := 429, body := some "Too Many Requests", redirectUrl := none,
    headers := [], deletedCookies := [] }

/-- `NextResponse.redirect(url)` followed by the cookie deletions the
middleware performs on it. -/
def redirectResponse (url : String) (cleared : List String) : MwResponse :=
  { status := 307, body := none, redirectUrl := some url,
    headers := [], deletedCookies := cleared }

/-- The pass-through `supabaseResponse` (`NextResponse.next`). -/
def nextResponse : MwResponse :=
  { status := 200, body := none, redirectUrl := none,
    headers := [], deletedCookies := [] }

/-- What `supabase.auth.getUser()` destructures to inside the middleware:
`{ data: { user, session }, error }`. `error` is modelled as a flag since
only its truthiness is inspected. -/
structure AuthResult where
  user : Option AuthUser
  session : Option Nat
  error : Bool
deriving DecidableEq

/-- The request fields the middleware reads (`session` above is the
session's `created_at` in epoch milliseconds). -/
structure MwRequest where
  ip : Option String
  forwardedFor : Option String
  path : String
deriving DecidableEq

/-- JS `a || b` on strings/null: the left operand wins unless it is falsy
(null or empty). -/
def jsOrString (a : Option String) (b : String) : String :=
  match a with
  | some s => if s = "" then b else s
  | none => b

/-- `request.ip || request.headers.get('x-forwarded-for') || 'unknown'`. -/
def clientIp (req : MwRequest) : String :=
  jsOrString req.ip (jsOrString req.forwardedFor "unknown")

/-- Model of JS `String.prototype.startsWith`. -/
def strStartsWith (s pre : String) : Bool :=
  s.data.take pre.data.length == pre.data

/-- The route classification of `updateSession`: everything outside
`/login`, `/register`, `/auth`, `/_next` and `/api/auth` is protected. -/
def isProtectedRoute (path : String) : Bool :=
  !(strStartsWith path "/login" || strStartsWith path "/register" ||
    strStartsWith path "/auth" || strStartsWith path "/_next" ||
    strStartsWith path "/api/auth")

/-- `maxSessionAge`: 24 hours in milliseconds. -/
def maxSessionAge : Nat := 24 * 60 * 60 * 1000

/-- `updateSession(request)` from `middleware.ts` with time, the auth
provider's answer and the rate-limit store made explicit: rate limit
first (the 429 short-circuits before any session work), then the auth
error path, the session-age path, the protected-route redirect, and
finally the cookie-synced pass-through; every path but the 429 goes
through `addSecurityHeaders`. -/
def updateSession (req : MwRequest) (now : Nat) (auth : AuthResult)
    (st : RateStore) : MwResponse × RateStore :=
  let ip := clientIp req
  let rl := checkRateLimit ip now st
  if rl.1 = false then
    (tooManyResponse, rl.2)
  else if auth.error then
    (addSecurityHeaders (redirectResponse "/login?error=session_invalid"
      ["sb-access-token", "sb-refresh-token"]), rl.2)
  else
    let expired : Bool :=
      match auth.user, auth.session with
      | some _, some createdAt => decide (maxSessionAge < now - createdAt)
      | _, _ => false
    if expired then
      (addSecurityHeaders (redirectResponse "/login?error=session_expired"
        ["sb-access-token", "sb-refresh-token"]), rl.2)
    else if auth.user = none ∧ isProtectedRoute req.path then
      (addSecurityHeaders
        (redirectResponse ("/login?redirectTo=" ++ req.path) []), rl.2)
    else
      (addSecurityHeaders nextResponse, rl.2)

/-! ### Helper lemmas about the string model -/

theorem charOfNat_toNat {n : Nat} (h : n < 0xD800) : (Char.ofNat n).toNat = n := by
  have hv : n.isValidChar := Or.inl h
  simp only [Char.ofNat, hv, dite_true]
  rfl

theorem mem_dropWhile_of_mem {p : Char → Bool} {l : List Char} {c : Char}
    (hc : c ∈ l) (hp : p c = false) : c ∈ l.dropWhile p := by
  induction l with
  | nil => cases hc
  | cons a t ih =>
    rcases List.mem_cons.mp hc with rfl | ht
    · by_cases ha : p c = true
      · rw [hp] at ha; cases ha
      · rw [List.dropWhile_cons_of_neg (by simp [hp])]
        exact List.mem_cons_self _ _
    · by_cases ha : p a = true
      · rw [List.dropWhile_cons_of_pos ha]
        exact ih ht
      · rw [List.dropWhile_cons_of_neg ha]
        exact List.mem_cons_of_mem _ ht

theorem mem_trimChars_of_mem {l : List Char} {c : Char}
    (hc : c ∈ l) (hp : isJsWhitespace c = false) : c ∈ trimChars l := by
  unfold trimChars List.rdropWhile
  rw [List.mem_reverse]
  exact mem_dropWhile_of_mem
    (by rw [List.mem_reverse]; exact mem_dropWhile_of_mem hc hp) hp

theorem trimChars_sublist (l : List Char) : (trimChars l).Sublist l :=
  ((List.rdropWhile_prefix _ _).sublist).trans (List.dropWhile_sublist _)

theorem length_trimChars_le (l : List Char) : (trimChars l).length ≤ l.length :=
  (trimChars_sublist l).length_le

theorem mem_of_mem_trimChars {l : List Char} {c : Char}
    (hc : c ∈ trimChars l) : c ∈ l :=
  (trimChars_sublist l).subset hc

theorem trimChars_idem (l : List Char) : trimChars (trimChars l) = trimChars l := by
  unfold trimChars
  have h1 : ((l.dropWhile isJsWhitespace).rdropWhile
      isJsWhitespace).dropWhile isJsWhitespace
      = (l.dropWhile isJsWhitespace).rdropWhile isJsWhitespace := by
    rw [List.dropWhile_eq_self_iff]
    intro hl
    have hpre := List.rdropWhile_prefix isJsWhitespace (l.dropWhile isJsWhitespace)
    rw [List.get_eq_getElem, List.IsPrefix.getElem hpre hl]
    have h0 : 0 < (l.dropWhile isJsWhitespace).length :=
      Nat.lt_of_lt_of_le hl (List.IsPrefix.length_le hpre)
    have := List.dropWhile_get_zero_not isJsWhitespace l h0
    simpa [List.get_eq_getElem] using this
  rw [h1, List.rdropWhile_idempotent]

/-- The head of a trimmed non-empty list is not whitespace. -/
theorem exists_not_ws_of_trimChars_ne_nil {l : List Char}
    (h : trimChars l ≠ []) : ∃ c ∈ trimChars l, isJsWhitespace c = false := by
  have hpre := List.rdropWhile_prefix isJsWhitespace (l.dropWhile isJsWhitespace)
  have hdw : l.dropWhile isJsWhitespace ≠ [] := by
    intro hnil
    apply h
    unfold trimChars
    rw [hnil]
    rfl
  refine ⟨(trimChars l).head h, List.head_mem h, ?_⟩
  have hh : (trimChars l).head h = (l.dropWhile isJsWhitespace).head hdw :=
    List.IsPrefix.head hpre h
  rw [hh]
  exact List.head_dropWhile_not isJsWhitespace l hdw

/-- The five characters escaped by `sanitizeHtml`. -/
def specialChars : List Char :=
  [Char.ofNat 60, Char.ofNat 62, Char.ofNat 34, Char.ofNat 39, Char.ofNat 38]

theorem escapeChar_eq_self {c : Char} (h : c ∉ specialChars) :
    escapeChar c = [c] := by
  simp only [specialChars, List.mem_cons, List.not_mem_nil, or_false, not_or] at h
  obtain ⟨h1, h2, h3, h4, h5⟩ := h
  unfold escapeChar
  rw [if_neg h1, if_neg h2, if_neg h3, if_neg h4, if_neg h5]

theorem flatten_map_eq_self {l : List Char}
    (h : ∀ c ∈ l, c ∉ specialChars) : (l.map escapeChar).flatten = l := by
  induction l with
  | nil => rfl
  | cons a t ih =>
    simp only [List.map_cons, List.flatten_cons]
    rw [escapeChar_eq_self (h a (List.mem_cons_self _ _)),
      ih (fun c hc => h c (List.mem_cons_of_mem _ hc))]
    rfl

theorem sanitizeHtml_eq_trim_of_plain {s : String}
    (h : ∀ c ∈ s.data, c ∉ specialChars) : sanitizeHtml s = jsTrim s := by
  unfold sanitizeHtml jsTrim
  rw [flatten_map_eq_self h]

/-! ### C3 — idempotence of sanitizeHtml -/

/-- C3 counterexample: `sanitizeHtml` is **not** idempotent. On the input
`"<"` the first pass produces `"&lt;"` and the second pass escapes the
introduced ampersand again, producing `"&amp;lt;"`. -/
theorem C3_counterexample :
    sanitizeHtml "<" = "&lt;" ∧
    sanitizeHtml (sanitizeHtml "<") = "&amp;lt;" ∧
    ¬ sanitizeHtml (sanitizeHtml "<") = sanitizeHtml "<" := by
  refine ⟨by decide, by decide, by decide⟩

/-- C3 (amended): sanitizing an already-sanitized string is idempotent only
for inputs containing none of the five escaped characters; on such strings
`sanitizeHtml (sanitizeHtml x) = sanitizeHtml x`. -/
theorem C3_sanitizeHtml_idempotent_on_plain (s : String)
    (h : ∀ c ∈ s.data, c ∉ specialChars) :
    sanitizeHtml (sanitizeHtml s) = sanitizeHtml s := by
  rw [sanitizeHtml_eq_trim_of_plain h]
  have h2 : ∀ c ∈ (jsTrim s).data, c ∉ specialChars := fun c hc =>
    h c (mem_of_mem_trimChars hc)
  rw [sanitizeHtml_eq_trim_of_plain h2]
  show String.mk (trimChars (trimChars s.data)) = String.mk (trimChars s.data)
  rw [trimChars_idem]

/-- C3 witness: the amended idempotence theorem applied at `"  hello "`. -/
theorem C3_witness :
    (∀ c ∈ ("  hello " : String).data, c ∉ specialChars) ∧
    sanitizeHtml (sanitizeHtml "  hello ") = sanitizeHtml "  hello " :=
  ⟨by decide, C3_sanitizeHtml_idempotent_on_plain "  hello " (by decide)⟩

/-! ### C5 — isUserAdmin ignores its argument -/

theorem isUserAdmin_eq_adminMetaFlag (userId : Option String) (env : AuthEnv) :
    isUserAdmin userId env = adminMetaFlag env := by
  obtain ⟨cu⟩ := env
  unfold isUserAdmin adminMetaFlag
  cases cu <;> split <;> rfl

/-- C5: `isUserAdmin` returns the same verdict for every `userId` argument
(including none at all): the result is exactly the current session user's
`user_metadata.is_admin === true` flag, and `false` when no user is
authenticated. -/
theorem C5_isUserAdmin_ignores_userId (u1 u2 : Option String) (env : AuthEnv) :
    isUserAdmin u1 env = isUserAdmin u2 env ∧
    isUserAdmin u1 env = adminMetaFlag env ∧
    isUserAdmin u1 ⟨none⟩ = false := by
  refine ⟨?_, isUserAdmin_eq_adminMetaFlag u1 env, ?_⟩
  · rw [isUserAdmin_eq_adminMetaFlag, isUserAdmin_eq_adminMetaFlag]
  · rw [isUserAdmin_eq_adminMetaFlag]
    rfl

/-! ### C1 — non-owner mutation attempts (updatePoll is wholly broken) -/

/-- Fixtures for C1: a stored poll owned by `"owner-1"`, an authenticated
non-owner, non-admin caller, and a well-formed update form posting a
question and two `options[]` entries. -/
def c1Poll : Poll :=
  { id := "11111111-1111-1111-1111-111111111111", user_id := "owner-1",
    question := "Original question", options := ["A", "B"],
    allow_multiple_votes := false, require_authentication := true,
    created_at := 0, updated_at := 0 }

def c1DB : DB := { polls := [c1Poll], votes := [] }

def c1Env : AuthEnv := ⟨some ⟨"attacker-1", none⟩⟩

def c1FormData : FormEntries :=
  [("question", "Updated question"), ("options[]", "A"), ("options[]", "B")]

/-- C1 (code bug): the claim describes the ownership check that
`updatePoll` and `deletePoll` implement, but `updatePoll`'s copy loop uses
`FormData.set`, which collapses the repeated `options[]` entries to one,
so `updatePollSchema`'s min-2 check fails on **every** input and the
ownership check is unreachable. At the concrete failing input — a
well-formed two-option update form — the authenticated non-owner receives
the validation error `"At least 2 options are required"` (not the claimed
authorization denial); the owner of the poll receives the very same error,
showing no update can ever succeed; the poll row is unchanged in both
cases. `deletePoll`, which takes no form, does behave as claimed: the
non-owner gets the authorization denial with polls and votes unchanged. -/
theorem C1_update_collapses_options :
    updatePoll "11111111-1111-1111-1111-111111111111" c1FormData c1Env 99
      c1DB = (some "At least 2 options are required", c1DB) ∧
    updatePoll "11111111-1111-1111-1111-111111111111" c1FormData
      ⟨some ⟨"owner-1", none⟩⟩ 99 c1DB =
      (some "At least 2 options are required", c1DB) ∧
    deletePoll "11111111-1111-1111-1111-111111111111" c1Env c1DB =
      (some "You can only delete your own polls", c1DB) := by
  refine ⟨by decide, by decide, by decide⟩

/-! ### C7 — duplicate votes are rejected -/

/-- C7: a second `submitVote` call by an authenticated user who already has
a vote on the poll fails with the duplicate-vote error, inserts nothing,
and leaves that user's vote count on the poll at 1. -/
theorem C7_duplicate_vote_rejected
    (pollId : String) (i : Int) (env : AuthEnv) (newVoteId : String) (db : DB)
    (u : AuthUser) (poll : Poll) (v : Vote)
    (hval : validateSubmitVote pollId i = none)
    (hfetch : single? (db.polls.filter (fun p => p.id = pollId)) = some poll)
    (huser : env.currentUser = some u)
    (hidx : i < (poll.options.length : Int))
    (hvote : db.votes.filter
        (fun v => v.poll_id = pollId ∧ v.user_id = some u.id) = [v]) :
    submitVote pollId i env newVoteId db =
      (some "You have already voted on this poll", db) ∧
    (db.votes.filter
        (fun v => v.poll_id = pollId ∧ v.user_id = some u.id)).length = 1 := by
  constructor
  · unfold submitVote
    rw [hval, hfetch]
    dsimp only
    rw [if_neg (by simp [huser]), if_neg (by omega), huser]
    dsimp only
    rw [hvote]
    rfl
  · rw [hvote]
    rfl

/-- Fixture for the C7 witness: a poll and one existing vote by the caller. -/
def c7Poll : Poll :=
  { id := "22222222-2222-2222-2222-222222222222", user_id := "owner-2",
    question := "Pick one option", options := ["A", "B"],
    allow_multiple_votes := false, require_authentication := true,
    created_at := 0, updated_at := 0 }

def c7Vote : Vote :=
  { id := "v1", poll_id := "22222222-2222-2222-2222-222222222222",
    user_id := some "voter-1", option_index := 0 }

def c7DB : DB := { polls := [c7Poll], votes := [c7Vote] }

/-- C7 witness: the duplicate-vote theorem applied at a concrete second
vote by `"voter-1"`. -/
theorem C7_witness :
    submitVote "22222222-2222-2222-2222-222222222222" 1 ⟨some ⟨"voter-1", none⟩⟩
      "v2" c7DB = (some "You have already voted on this poll", c7DB) ∧
    (c7DB.votes.filter (fun v =>
      v.poll_id = "22222222-2222-2222-2222-222222222222" ∧
      v.user_id = some "voter-1")).length = 1 :=
  C7_duplicate_vote_rejected _ 1 ⟨some ⟨"voter-1", none⟩⟩ "v2" c7DB
    ⟨"voter-1", none⟩ c7Poll c7Vote (by rfl) (by decide) (by decide) (by decide)
    (by decide)

/-! ### C8 — stale option index is rejected against live options -/

/-- C8: a `submitVote` call whose `optionIndex` is at least the poll's
current option count fails with a validation error — the schema's
`"Option index cannot exceed 9"` when the index exceeds 9, otherwise the
live-count check's `"Invalid option selected"` — and no vote is inserted. -/
theorem C8_stale_option_index_rejected
    (pollId : String) (i : Int) (env : AuthEnv) (newVoteId : String) (db : DB)
    (poll : Poll)
    (huuid : isUuid pollId = true)
    (hnn : 0 ≤ i)
    (hfetch : single? (db.polls.filter (fun p => p.id = pollId)) = some poll)
    (hauth : ¬ (poll.require_authentication ∧ env.currentUser = none))
    (hidx : (poll.options.length : Int) ≤ i) :
    (submitVote pollId i env newVoteId db).2 = db ∧
    ((submitVote pollId i env newVoteId db).1 =
        some "Option index cannot exceed 9" ∨
     (submitVote pollId i env newVoteId db).1 =
        some "Invalid option selected") := by
  by_cases h9 : 9 < i
  · have hval : validateSubmitVote pollId i =
        some "Option index cannot exceed 9" := by
      unfold validateSubmitVote
      rw [if_neg (by simp [huuid]), if_neg (by omega), if_pos h9]
    unfold submitVote
    rw [hval]
    exact ⟨rfl, Or.inl rfl⟩
  · have hval : validateSubmitVote pollId i = none := by
      unfold validateSubmitVote
      rw [if_neg (by simp [huuid]), if_neg (by omega), if_neg h9]
    unfold submitVote
    rw [hval, hfetch]
    dsimp only
    rw [if_neg hauth, if_pos hidx]
    exact ⟨rfl, Or.inr rfl⟩

/-- Fixture for the C8 witness: a two-option poll that does not require
authentication, voted on with index 5. -/
def c8Poll : Poll :=
  { id := "33333333-3333-3333-3333-333333333333", user_id := "owner-3",
    question := "Pick one option", options := ["A", "B"],
    allow_multiple_votes := false, require_authentication := false,
    created_at := 0, updated_at := 0 }

def c8DB : DB := { polls := [c8Poll], votes := [] }

/-- C8 witness: the stale-index theorem applied at a concrete vote with
`optionIndex = 5` against a two-option poll. -/
theorem C8_witness :
    (submitVote "33333333-3333-3333-3333-333333333333" 5 ⟨none⟩ "v1" c8DB).2
      = c8DB ∧
    ((submitVote "33333333-3333-3333-3333-333333333333" 5 ⟨none⟩ "v1" c8DB).1 =
        some "Option index cannot exceed 9" ∨
     (submitVote "33333333-3333-3333-3333-333333333333" 5 ⟨none⟩ "v1" c8DB).1 =
        some "Invalid option selected") :=
  C8_stale_option_index_rejected _ 5 ⟨none⟩ "v1" c8DB c8Poll (by rfl)
    (by decide) (by decide) (by decide) (by decide)

/-! ### C10 — option-count and case-insensitive-duplicate validation -/

theorem isJsWhitespace_eq_false_of {c : Char} (h1 : 65 ≤ c.toNat)
    (h2 : c.toNat ≤ 122) : isJsWhitespace c = false := by
  unfold isJsWhitespace
  simp only [Bool.or_eq_false_iff, Bool.and_eq_false_iff,
    decide_eq_false_iff_not]
  omega

theorem ws_lowerChar (c : Char) :
    isJsWhitespace (lowerChar c) = isJsWhitespace c := by
  unfold lowerChar
  split
  case isTrue h =>
    simp only [Bool.and_eq_true, decide_eq_true_eq] at h
    have ht : (Char.ofNat (c.toNat + 32)).toNat = c.toNat + 32 :=
      charOfNat_toNat (by omega)
    rw [isJsWhitespace_eq_false_of (c := Char.ofNat (c.toNat + 32))
        (by rw [ht]; omega) (by rw [ht]; omega),
      isJsWhitespace_eq_false_of (c := c) (by omega) (by omega)]
  case isFalse h => rfl

theorem trimChars_map_lower (l : List Char) :
    trimChars (l.map lowerChar) = (trimChars l).map lowerChar := by
  have hws : isJsWhitespace ∘ lowerChar = isJsWhitespace := funext ws_lowerChar
  unfold trimChars List.rdropWhile
  rw [List.dropWhile_map, hws, ← List.map_reverse, List.dropWhile_map, hws,
    ← List.map_reverse]

theorem optionKey_jsTrim (o : String) : optionKey (jsTrim o) = optionKey o := by
  unfold optionKey lowerStr jsTrim
  show String.mk (trimChars ((trimChars o.data).map lowerChar)) =
    String.mk (trimChars (o.data.map lowerChar))
  rw [trimChars_map_lower, trimChars_map_lower, trimChars_idem]

theorem validateOption_ok {o t : String} (h : validateOption o = .ok t) :
    t = jsTrim o ∧ o.length ≤ 200 := by
  unfold validateOption at h
  split at h
  · cases h
  · split at h
    · cases h
    · split at h
      · cases h
      · cases h
        exact ⟨rfl, by omega⟩

theorem validateOptionsList_ok {os ts : List String}
    (h : validateOptionsList os = .ok ts) :
    ts.map optionKey = os.map optionKey ∧
    ∀ t ∈ ts, ∃ o ∈ os, t = jsTrim o ∧ o.length ≤ 200 := by
  induction os generalizing ts with
  | nil =>
    cases h
    exact ⟨rfl, by simp⟩
  | cons o os ih =>
    unfold validateOptionsList at h
    cases hvo : validateOption o with
    | error m => rw [hvo] at h; cases h
    | ok t =>
      rw [hvo] at h
      cases hvl : validateOptionsList os with
      | error m => rw [hvl] at h; cases h
      | ok ts' =>
        rw [hvl] at h
        cases h
        obtain ⟨ih1, ih2⟩ := ih hvl
        obtain ⟨hto, holen⟩ := validateOption_ok hvo
        constructor
        · simp only [List.map_cons, ih1, List.cons.injEq, and_true]
          rw [hto, optionKey_jsTrim]
        · intro t' ht'
          rcases List.mem_cons.mp ht' with rfl | ht'
          · exact ⟨o, List.mem_cons_self _ _, hto, holen⟩
          · obtain ⟨o', ho', h1, h2⟩ := ih2 t' ht'
            exact ⟨o', List.mem_cons_of_mem _ ho', h1, h2⟩

theorem dedup_length_eq_iff {l : List String} :
    l.dedup.length = l.length ↔ l.Nodup := by
  constructor
  · intro h
    have heq := List.Sublist.eq_of_length (List.dedup_sublist l) h
    rw [← heq]
    exact List.nodup_dedup l
  · intro h
    rw [List.dedup_eq_self.mpr h]

/-- C10: a poll-creation input whose options array has fewer than 2 or more
than 10 entries, or contains two entries equal after lowercasing and
trimming, fails schema validation, so `createPoll` returns the validation
error message and inserts no row. -/
theorem C10_invalid_options_rejected
    (raw : RawPollInput) (env : AuthEnv) (newId : String) (now : Nat) (db : DB)
    (h : raw.options.length < 2 ∨ 10 < raw.options.length ∨
         ¬ (raw.options.map optionKey).Nodup) :
    ∃ msg, validateCreatePoll raw = .error msg ∧
      createPoll raw env newId now db = (some msg, db) := by
  have hopts : ∃ m, validateOptions raw.options = .error m := by
    by_cases h2 : raw.options.length < 2
    · exact ⟨_, by unfold validateOptions; rw [if_pos h2]⟩
    by_cases h10 : 10 < raw.options.length
    · exact ⟨_, by unfold validateOptions; rw [if_neg h2, if_pos h10]⟩
    rcases h with h | h | hdup
    · exact absurd h h2
    · exact absurd h h10
    cases hvl : validateOptionsList raw.options with
    | error m =>
      exact ⟨m, by unfold validateOptions; rw [if_neg h2, if_neg h10, hvl]⟩
    | ok ts =>
      have hkeys : ts.map optionKey = raw.options.map optionKey :=
        (validateOptionsList_ok hvl).1
      have hnd : ¬ (ts.map optionKey).Nodup := by rw [hkeys]; exact hdup
      have hlen : ((ts.map optionKey).dedup).length ≠ ts.length := by
        intro hEq
        apply hnd
        have hl2 : (ts.map optionKey).dedup.length =
            (ts.map optionKey).length := by
          rw [hEq, List.length_map]
        exact dedup_length_eq_iff.mp hl2
      refine ⟨"All options must be unique", ?_⟩
      unfold validateOptions
      rw [if_neg h2, if_neg h10, hvl]
      dsimp only
      rw [if_neg hlen]
  obtain ⟨m, hm⟩ := hopts
  cases hq : validateCreateQuestion raw.question with
  | error mq =>
    refine ⟨mq, ?_, ?_⟩
    · unfold validateCreatePoll
      rw [hq]
    · unfold createPoll validateCreatePoll
      rw [hq]
  | ok q =>
    refine ⟨m, ?_, ?_⟩
    · unfold validateCreatePoll
      rw [hq, hm]
    · unfold createPoll validateCreatePoll
      rw [hq, hm]

/-- C10 witness: the rejection theorem applied at the options array
`["Go", "go"]`, a case-insensitive duplicate. -/
theorem C10_witness :
    ∃ msg, validateCreatePoll ⟨"A valid question", ["Go", "go"], none, none⟩ =
        .error msg ∧
      createPoll ⟨"A valid question", ["Go", "go"], none, none⟩
        ⟨some ⟨"creator-1", none⟩⟩ "p1" 0 ⟨[], []⟩ = (some msg, ⟨[], []⟩) :=
  C10_invalid_options_rejected _ ⟨some ⟨"creator-1", none⟩⟩ "p1" 0 ⟨[], []⟩
    (Or.inr (Or.inr (by decide)))

/-! ### C6 — length properties of stored questions and options -/

theorem escapeChar_length_le (c : Char) : (escapeChar c).length ≤ 6 := by
  unfold escapeChar
  split_ifs <;> simp

theorem flatten_escape_length_le (l : List Char) :
    ((l.map escapeChar).flatten).length ≤ 6 * l.length := by
  induction l with
  | nil => simp
  | cons a t ih =>
    simp only [List.map_cons, List.flatten_cons, List.length_append,
      List.length_cons]
    have := escapeChar_length_le a
    omega

theorem sanitizeHtml_length_le (s : String) :
    (sanitizeHtml s).length ≤ 6 * s.length := by
  show (trimChars ((s.data.map escapeChar).flatten)).length ≤ 6 * s.data.length
  calc (trimChars ((s.data.map escapeChar).flatten)).length
      ≤ ((s.data.map escapeChar).flatten).length := length_trimChars_le _
    _ ≤ 6 * s.data.length := flatten_escape_length_le _

theorem jsTrim_length_le (q : String) : (jsTrim q).length ≤ q.length :=
  length_trimChars_le q.data

theorem exists_nonws_escape {c : Char} (h : isJsWhitespace c = false) :
    ∃ d ∈ escapeChar c, isJsWhitespace d = false := by
  unfold escapeChar
  split_ifs <;>
    first
      | exact ⟨Char.ofNat 38, by decide, by decide⟩
      | exact ⟨c, by simp, h⟩

theorem sanitizeHtml_length_pos {s : String}
    (h : ∃ c ∈ s.data, isJsWhitespace c = false) :
    1 ≤ (sanitizeHtml s).length := by
  obtain ⟨c, hc, hcw⟩ := h
  obtain ⟨d, hd, hdw⟩ := exists_nonws_escape hcw
  have hdm : d ∈ (s.data.map escapeChar).flatten :=
    List.mem_flatten.mpr ⟨escapeChar c, List.mem_map_of_mem _ hc, hd⟩
  have hmem := mem_trimChars_of_mem hdm hdw
  show 1 ≤ (trimChars ((s.data.map escapeChar).flatten)).length
  exact List.length_pos.mpr (List.ne_nil_of_mem hmem)

theorem exists_nonws_of_jsTrim_ne_empty {q : String}
    (h : (jsTrim q).length ≠ 0) :
    ∃ c ∈ (jsTrim q).data, isJsWhitespace c = false := by
  have hne : trimChars q.data ≠ [] := by
    intro he
    apply h
    show (trimChars q.data).length = 0
    rw [he]
    rfl
  exact exists_not_ws_of_trimChars_ne_nil hne

theorem validateCreateQuestion_ok {q q' : String}
    (h : validateCreateQuestion q = .ok q') :
    q' = jsTrim q ∧ q.length ≤ 500 ∧ (jsTrim q).length ≠ 0 := by
  unfold validateCreateQuestion at h
  split at h
  · cases h
  · split at h
    · cases h
    · split at h
      · cases h
      · split at h
        · cases h
        · cases h
          exact ⟨rfl, by omega, by assumption⟩

theorem validateUpdateQuestion_ok {q q' : String}
    (h : validateUpdateQuestion q = .ok q') :
    q' = jsTrim q ∧ q.length ≤ 500 := by
  unfold validateUpdateQuestion at h
  split at h
  · cases h
  · split at h
    · cases h
    · split at h
      · cases h
      · cases h
        exact ⟨rfl, by omega⟩

theorem validateOptions_ok {os ts : List String}
    (h : validateOptions os = .ok ts) : validateOptionsList os = .ok ts := by
  unfold validateOptions at h
  split at h
  · cases h
  · split at h
    · cases h
    · cases hvl : validateOptionsList os with
      | error m => rw [hvl] at h; cases h
      | ok ts' =>
        rw [hvl] at h
        dsimp only at h
        split at h
        · cases h
          rfl
        · cases h

theorem validateCreatePoll_ok {raw : RawPollInput} {data : CreatePollData}
    (h : validateCreatePoll raw = .ok data) :
    validateCreateQuestion raw.question = .ok data.question ∧
    validateOptions raw.options = .ok data.options := by
  unfold validateCreatePoll at h
  cases hq : validateCreateQuestion raw.question with
  | error m => rw [hq] at h; cases h
  | ok q =>
    rw [hq] at h
    cases ho : validateOptions raw.options with
    | error m => rw [ho] at h; cases h
    | ok os =>
      rw [ho] at h
      cases h
      exact ⟨rfl, rfl⟩

theorem validateUpdatePollForm_ok {entries : FormEntries}
    {q : String} {os : List String}
    (h : validateUpdatePollForm entries = .ok (q, os)) :
    (∃ q0, validateUpdateQuestion q0 = .ok q) ∧
    (∃ os0, validateOptions os0 = .ok os) := by
  unfold validateUpdatePollForm at h
  cases hd : decodeEntries entries [] with
  | none => rw [hd] at h; cases h
  | some raw =>
    rw [hd] at h
    dsimp only at h
    unfold validateUpdatePollRaw at h
    cases h1 : fieldString (rawGet raw "pollId") with
    | error m => rw [h1] at h; cases h
    | ok pid =>
      rw [h1] at h
      dsimp only at h
      split at h
      · cases h
      · cases h2 : fieldString (rawGet raw "question") with
        | error m => rw [h2] at h; cases h
        | ok q0 =>
          rw [h2] at h
          dsimp only at h
          cases h3 : validateUpdateQuestion q0 with
          | error m => rw [h3] at h; cases h
          | ok q' =>
            rw [h3] at h
            dsimp only at h
            cases h4 : fieldArray (rawGet raw "options") with
            | error m => rw [h4] at h; cases h
            | ok os0 =>
              rw [h4] at h
              dsimp only at h
              cases h5 : validateOptions os0 with
              | error m => rw [h5] at h; cases h
              | ok os' =>
                rw [h5] at h
                cases h
                exact ⟨⟨q0, h3⟩, ⟨os0, h5⟩⟩

theorem sanitizeArray_bounds {os ts : List String}
    (hvl : validateOptionsList os = .ok ts) :
    ∀ x ∈ sanitizeArray ts, 1 ≤ x.length ∧ x.length ≤ 1200 := by
  intro x hx
  unfold sanitizeArray at hx
  obtain ⟨hx1, hx2⟩ := List.mem_filter.mp hx
  obtain ⟨t, ht, rfl⟩ := List.mem_map.mp hx1
  obtain ⟨o, _, rfl, holen⟩ := (validateOptionsList_ok hvl).2 t ht
  constructor
  · simp only [bne_iff_ne, ne_eq] at hx2
    omega
  · calc (sanitizeHtml (jsTrim o)).length
        ≤ 6 * (jsTrim o).length := sanitizeHtml_length_le _
      _ ≤ 6 * o.length := by
          have := jsTrim_length_le o
          omega
      _ ≤ 1200 := by omega

/-- Fixtures for the C6 counterexample: a question of four spaces and one
letter (stored as the single letter `"a"`), and a question/option made of
ampersands, each of which sanitizes to five times its length. -/
def c6LowRaw : RawPollInput := ⟨"    a", ["yes", "no"], none, none⟩

def c6AmpRaw : RawPollInput :=
  ⟨⟨List.replicate 126 (Char.ofNat 38)⟩,
   ["yes", ⟨List.replicate 50 (Char.ofNat 38)⟩], none, none⟩

def c6Env : AuthEnv := ⟨some ⟨"creator-6", none⟩⟩

set_option maxRecDepth 40000 in
/-- C6 counterexample: `createPoll` accepts the question `"    a"` (five
characters before the schema's trim) and stores the one-character question
`"a"`, violating the 5-character minimum; it accepts a 126-ampersand
question and a 50-ampersand option and stores them escaped as 630 and 250
characters, violating the 500/200 caps. -/
theorem C6_counterexample :
    (createPoll c6LowRaw c6Env "p1" 0 ⟨[], []⟩).1 = none ∧
    ¬ (∀ p ∈ (createPoll c6LowRaw c6Env "p1" 0 ⟨[], []⟩).2.polls,
        5 ≤ p.question.length) ∧
    (createPoll c6AmpRaw c6Env "p2" 0 ⟨[], []⟩).1 = none ∧
    ¬ (∀ p ∈ (createPoll c6AmpRaw c6Env "p2" 0 ⟨[], []⟩).2.polls,
        p.question.length ≤ 500 ∧ ∀ o ∈ p.options, o.length ≤ 200) := by
  refine ⟨by decide, by decide, by decide, by decide⟩

/-- C6 (amended): the 5–500 and 1–200 caps hold for the **pre-sanitization**
values only; for the stored row, HTML escaping expands each character to at
most 6 characters and the schema's trim can shrink below the minimum, so
the guarantee is: a question stored by `createPoll` has length in 1–3000
(`updatePoll`, whose schema lacks the non-whitespace refinement, only
guarantees at most 3000), and every stored option has length in 1–1200. -/
theorem C6_stored_length_bounds
    (raw : RawPollInput) (env : AuthEnv) (newId : String) (now : Nat)
    (db : DB) (pollId : String) (formData : FormEntries) :
    (∀ p ∈ (createPoll raw env newId now db).2.polls,
      p ∈ db.polls ∨
      (1 ≤ p.question.length ∧ p.question.length ≤ 3000 ∧
       ∀ o ∈ p.options, 1 ≤ o.length ∧ o.length ≤ 1200)) ∧
    (∀ p ∈ (updatePoll pollId formData env now db).2.polls,
      p ∈ db.polls ∨
      (p.question.length ≤ 3000 ∧
       ∀ o ∈ p.options, 1 ≤ o.length ∧ o.length ≤ 1200)) := by
  constructor
  · intro p hp
    unfold createPoll at hp
    cases hv : validateCreatePoll raw with
    | error m => rw [hv] at hp; exact Or.inl hp
    | ok data =>
      rw [hv] at hp
      dsimp only at hp
      cases hcu : env.currentUser with
      | none => rw [hcu] at hp; exact Or.inl hp
      | some u =>
        rw [hcu] at hp
        dsimp only at hp
        rw [List.mem_append] at hp
        rcases hp with hp | hp
        · exact Or.inl hp
        · right
          rw [List.mem_singleton] at hp
          subst hp
          obtain ⟨hq, ho⟩ := validateCreatePoll_ok hv
          obtain ⟨hq1, hq2, hq3⟩ := validateCreateQuestion_ok hq
          refine ⟨?_, ?_, ?_⟩
          · show 1 ≤ (sanitizeHtml data.question).length
            rw [hq1]
            exact sanitizeHtml_length_pos (exists_nonws_of_jsTrim_ne_empty hq3)
          · show (sanitizeHtml data.question).length ≤ 3000
            rw [hq1]
            calc (sanitizeHtml (jsTrim raw.question)).length
                ≤ 6 * (jsTrim raw.question).length := sanitizeHtml_length_le _
              _ ≤ 3000 := by
                  have := jsTrim_length_le raw.question
                  omega
          · show ∀ o ∈ sanitizeArray data.options, 1 ≤ o.length ∧ o.length ≤ 1200
            exact sanitizeArray_bounds (validateOptions_ok ho)
  · intro p hp
    unfold updatePoll at hp
    by_cases hu : isUuid pollId = false
    · rw [if_pos hu] at hp
      exact Or.inl hp
    rw [if_neg hu] at hp
    cases hv : validateUpdatePollForm
        (setEntries (setEntry [] "pollId" pollId) formData) with
    | error m => rw [hv] at hp; exact Or.inl hp
    | ok qos =>
      obtain ⟨q, os⟩ := qos
      rw [hv] at hp
      dsimp only at hp
      cases hcu : env.currentUser with
      | none => rw [hcu] at hp; exact Or.inl hp
      | some u =>
        rw [hcu] at hp
        dsimp only at hp
        cases hf : single? (db.polls.filter (fun p => p.id = pollId)) with
        | none => rw [hf] at hp; exact Or.inl hp
        | some existing =>
          rw [hf] at hp
          dsimp only at hp
          split at hp
          · exact Or.inl hp
          · rw [List.mem_map] at hp
            obtain ⟨orig, horig, rfl⟩ := hp
            obtain ⟨⟨q0, hqv⟩, ⟨os0, hov⟩⟩ := validateUpdatePollForm_ok hv
            obtain ⟨hq1, hq2⟩ := validateUpdateQuestion_ok hqv
            by_cases hid : orig.id = pollId
            · rw [if_pos hid]
              right
              refine ⟨?_, ?_⟩
              · show (sanitizeHtml q).length ≤ 3000
                rw [hq1]
                calc (sanitizeHtml (jsTrim q0)).length
                    ≤ 6 * (jsTrim q0).length :=
                      sanitizeHtml_length_le _
                  _ ≤ 3000 := by
                      have := jsTrim_length_le q0
                      omega
              · show ∀ o ∈ sanitizeArray os, 1 ≤ o.length ∧ o.length ≤ 1200
                exact sanitizeArray_bounds (validateOptions_ok hov)
            · rw [if_neg hid]
              exact Or.inl horig

/-- The row the C6 witness inspects. -/
def c6StoredRow : Poll :=
  { id := "p1", user_id := "creator-6", question := "A valid question",
    options := ["yes", "no"], allow_multiple_votes := false,
    require_authentication := true, created_at := 0, updated_at := 0 }

def c6GoodRaw : RawPollInput := ⟨"A valid question", ["yes", "no"], none, none⟩

/-- C6 witness: the amended bound theorem applied to the row stored by a
concrete successful `createPoll`. -/
theorem C6_witness :
    c6StoredRow ∈ (⟨[], []⟩ : DB).polls ∨
      (1 ≤ c6StoredRow.question.length ∧
       c6StoredRow.question.length ≤ 3000 ∧
       ∀ o ∈ c6StoredRow.options, 1 ≤ o.length ∧ o.length ≤ 1200) :=
  (C6_stored_length_bounds c6GoodRaw c6Env "p1" 0 ⟨[], []⟩ "x" []).1
    c6StoredRow (by decide)

/-! ### C2 — sessions older than 24 hours are rejected -/

/-- C2: when the request is not rate-limited, the auth provider reports no
error and returns a (still valid) user and session, but the session's
`created_at` lies more than 24 hours in the past, the middleware answers
with the redirect to `/login?error=session_expired` and deletes both
session cookies. -/
theorem C2_old_session_rejected (req : MwRequest) (now : Nat)
    (auth : AuthResult) (st : RateStore) (u : AuthUser) (createdAt : Nat)
    (hrl : (checkRateLimit (clientIp req) now st).1 = true)
    (herr : auth.error = false)
    (huser : auth.user = some u)
    (hsess : auth.session = some createdAt)
    (hage : createdAt + maxSessionAge < now) :
    (updateSession req now auth st).1 =
      addSecurityHeaders (redirectResponse "/login?error=session_expired"
        ["sb-access-token", "sb-refresh-token"]) := by
  unfold updateSession
  dsimp only
  rw [if_neg (by simp [hrl]), if_neg (by simp [herr]), huser, hsess]
  dsimp only
  rw [if_pos (by simp only [decide_eq_true_eq]; omega)]

def c2Request : MwRequest := ⟨some "8.8.8.8", none, "/polls"⟩

/-- C2 witness: the session-age theorem applied at a concrete request with
a session created at epoch 0 and the clock one millisecond past 24 hours. -/
theorem C2_witness :
    (updateSession c2Request (maxSessionAge + 1)
        ⟨some ⟨"u1", none⟩, some 0, false⟩ emptyStore).1 =
      addSecurityHeaders (redirectResponse "/login?error=session_expired"
        ["sb-access-token", "sb-refresh-token"]) :=
  C2_old_session_rejected c2Request (maxSessionAge + 1)
    ⟨some ⟨"u1", none⟩, some 0, false⟩ emptyStore ⟨"u1", none⟩ 0
    (by decide) rfl rfl rfl (by decide)

/-! ### C4 — security headers on middleware responses -/

theorem addSecurityHeaders_headers {r : MwResponse} (h : r.headers = []) :
    (addSecurityHeaders r).headers = securityHeaders := by
  show securityHeaders.foldl (fun hs p => setHeader hs p.1 p.2) r.headers =
    securityHeaders
  rw [h]
  decide

def c4Request : MwRequest := ⟨some "9.9.9.9", none, "/polls"⟩

def c4Store : RateStore :=
  fun k => if k = "9.9.9.9" then some ⟨100, 1000000⟩ else none

/-- C4 counterexample: the rate-limit rejection is returned **without**
`addSecurityHeaders` — a 429 middleware response carrying no headers at
all, contradicting the claim that every response (including the rate-limit
rejection) carries the security headers. -/
theorem C4_counterexample :
    (updateSession c4Request 5 ⟨none, none, false⟩ c4Store).1.status = 429 ∧
    (updateSession c4Request 5 ⟨none, none, false⟩ c4Store).1.headers = [] := by
  refine ⟨by decide, by decide⟩

/-- C4 (amended): every middleware response **except the rate-limit 429**
carries exactly the five security headers (frame-deny, no-sniff, strict
referrer policy, legacy XSS flag, and the content-security-policy); this
covers the pass-through response and all three redirects. -/
theorem C4_security_headers_on_non429 (req : MwRequest) (now : Nat)
    (auth : AuthResult) (st : RateStore) :
    (updateSession req now auth st).1.status = 429 ∨
    (updateSession req now auth st).1.headers = securityHeaders := by
  unfold updateSession
  dsimp only
  split
  · exact Or.inl rfl
  · split
    · exact Or.inr (addSecurityHeaders_headers rfl)
    · split
      · exact Or.inr (addSecurityHeaders_headers rfl)
      · split
        · exact Or.inr (addSecurityHeaders_headers rfl)
        · exact Or.inr (addSecurityHeaders_headers rfl)

/-! ### C9 — fixed-window rate limiting -/

theorem runRateLimit_all_allowed (ip : String) :
    ∀ (ts : List Nat) (st : RateStore) (c r : Nat),
    st ip = some ⟨c, r⟩ → (∀ t ∈ ts, t ≤ r) →
    c + ts.length ≤ RATE_LIMIT_MAX_REQUESTS →
    (runRateLimit ip ts st).1 = List.replicate ts.length true ∧
    (runRateLimit ip ts st).2 ip = some ⟨c + ts.length, r⟩ := by
  intro ts
  induction ts with
  | nil =>
    intro st c r hst _ _
    exact ⟨rfl, by simpa using hst⟩
  | cons t ts ih =>
    intro st c r hst htimes hcount
    have hmax : RATE_LIMIT_MAX_REQUESTS = 100 := rfl
    have hstep : checkRateLimit ip t st =
        (true, setRecord st ip ⟨c + 1, r⟩) := by
      unfold checkRateLimit
      rw [hst]
      dsimp only
      rw [if_neg (by
            have := htimes t (List.mem_cons_self _ _)
            omega),
        if_neg (by
            simp only [List.length_cons] at hcount
            omega)]
    have hset : (setRecord st ip ⟨c + 1, r⟩) ip = some ⟨c + 1, r⟩ := by
      unfold setRecord
      rw [if_pos rfl]
    obtain ⟨h1, h2⟩ := ih (setRecord st ip ⟨c + 1, r⟩) (c + 1) r hset
      (fun t' ht' => htimes t' (List.mem_cons_of_mem _ ht'))
      (by simp only [List.length_cons] at hcount; omega)
    constructor
    · show (checkRateLimit ip t st).1 ::
        (runRateLimit ip ts (checkRateLimit ip t st).2).1 =
        List.replicate (t :: ts).length true
      rw [hstep]
      dsimp only
      rw [h1, List.length_cons, List.replicate_succ]
    · show (runRateLimit ip ts (checkRateLimit ip t st).2).2 ip =
        some ⟨c + (t :: ts).length, r⟩
      rw [hstep]
      dsimp only
      rw [h2]
      have : c + 1 + ts.length = c + (t :: ts).length := by
        simp only [List.length_cons]
        omega
      rw [this]

theorem runRateLimit_append (ip : String) (xs ys : List Nat) :
    ∀ st : RateStore,
    runRateLimit ip (xs ++ ys) st =
      ((runRateLimit ip xs st).1 ++
         (runRateLimit ip ys (runRateLimit ip xs st).2).1,
       (runRateLimit ip ys (runRateLimit ip xs st).2).2) := by
  induction xs with
  | nil => intro st; rfl
  | cons x xs ih =>
    intro st
    show ((checkRateLimit ip x st).1 ::
        (runRateLimit ip (xs ++ ys) (checkRateLimit ip x st).2).1,
        (runRateLimit ip (xs ++ ys) (checkRateLimit ip x st).2).2) = _
    rw [ih]
    rfl

/-- C9: (i) starting from a window with no record for the IP, a run of 101
requests whose followers all fall inside the first request's 15-minute
window allows exactly the first 100 and rejects the 101st; (ii) whenever
the rate-limit check rejects, the middleware returns the bare 429 response
for **every** possible auth-provider answer — i.e. before any session
work; (iii) once `resetTime` has passed, the check restarts the window
with count 1 and allows the request. -/
theorem C9_fixed_window_rate_limit :
    (∀ (ip : String) (t0 : Nat) (ts : List Nat) (st : RateStore),
      st ip = none → ts.length = 100 →
      (∀ t ∈ ts, t ≤ t0 + RATE_LIMIT_WINDOW) →
      (runRateLimit ip (t0 :: ts) st).1 =
        List.replicate 100 true ++ [false]) ∧
    (∀ (req : MwRequest) (now : Nat) (auth : AuthResult) (st : RateStore),
      (checkRateLimit (clientIp req) now st).1 = false →
      (updateSession req now auth st).1 = tooManyResponse) ∧
    (∀ (ip : String) (now : Nat) (st : RateStore) (rec : RateRecord),
      st ip = some rec → rec.resetTime < now →
      checkRateLimit ip now st =
        (true, setRecord st ip ⟨1, now + RATE_LIMIT_WINDOW⟩)) := by
  refine ⟨?_, ?_, ?_⟩
  · intro ip t0 ts st hst hlen htimes
    have hfirst : checkRateLimit ip t0 st =
        (true, setRecord st ip ⟨1, t0 + RATE_LIMIT_WINDOW⟩) := by
      unfold checkRateLimit
      rw [hst]
    obtain ⟨tlast, htlast⟩ : ∃ t, ts.drop 99 = [t] :=
      List.length_eq_one.mp (by rw [List.length_drop, hlen])
    have hsplit : ts = ts.take 99 ++ [tlast] := by
      rw [← htlast, List.take_append_drop]
    have hset : (setRecord st ip ⟨1, t0 + RATE_LIMIT_WINDOW⟩) ip =
        some ⟨1, t0 + RATE_LIMIT_WINDOW⟩ := by
      unfold setRecord
      rw [if_pos rfl]
    have hlen99 : (ts.take 99).length = 99 := by
      rw [List.length_take, hlen]
      decide
    obtain ⟨h99, hst99⟩ := runRateLimit_all_allowed ip (ts.take 99)
      (setRecord st ip ⟨1, t0 + RATE_LIMIT_WINDOW⟩) 1 (t0 + RATE_LIMIT_WINDOW)
      hset
      (fun t' ht' => htimes t' (List.take_subset _ _ ht'))
      (by rw [hlen99]; decide)
    have hlaststep : checkRateLimit ip tlast
        (runRateLimit ip (ts.take 99)
          (setRecord st ip ⟨1, t0 + RATE_LIMIT_WINDOW⟩)).2 =
        (false, (runRateLimit ip (ts.take 99)
          (setRecord st ip ⟨1, t0 + RATE_LIMIT_WINDOW⟩)).2) := by
      unfold checkRateLimit
      rw [hst99, hlen99]
      dsimp only
      rw [if_neg (by
            have htl : tlast ∈ ts := by
              rw [hsplit]
              exact List.mem_append_right _ (List.mem_singleton_self _)
            have := htimes tlast htl
            omega),
        if_pos (by norm_num [RATE_LIMIT_MAX_REQUESTS])]
    show (runRateLimit ip (t0 :: ts) st).1 = List.replicate 100 true ++ [false]
    have hunf : (runRateLimit ip (t0 :: ts) st).1 =
        (checkRateLimit ip t0 st).1 ::
          (runRateLimit ip ts (checkRateLimit ip t0 st).2).1 := rfl
    rw [hunf, hfirst]
    dsimp only
    rw [hsplit, runRateLimit_append, h99, hlen99]
    have hlast : (runRateLimit ip [tlast]
        (runRateLimit ip (ts.take 99)
          (setRecord st ip ⟨1, t0 + RATE_LIMIT_WINDOW⟩)).2).1 = [false] := by
      show ((checkRateLimit ip tlast _).1 :: (runRateLimit ip [] _).1) = [false]
      rw [hlaststep]
      rfl
    rw [hlast]
    rfl
  · intro req now auth st h
    unfold updateSession
    dsimp only
    rw [if_pos h]
  · intro ip now st rec hst hreset
    unfold checkRateLimit
    rw [hst]
    dsimp only
    rw [if_pos hreset]

def c9FullStore : RateStore :=
  fun k => if k = "4.4.4.4" then some ⟨100, 10⟩ else none

def c9OneStore : RateStore :=
  fun k => if k = "1.2.3.4" then some ⟨57, 5 + RATE_LIMIT_WINDOW⟩ else none

/-- C9 witness: the rate-limit theorem applied at a concrete run of 101
requests from one IP at time 5, at a concrete rejected request, and at a
concrete expired window. -/
theorem C9_witness :
    (runRateLimit "1.2.3.4" ((5 : Nat) :: List.replicate 100 5) emptyStore).1 =
      List.replicate 100 true ++ [false] ∧
    (updateSession ⟨some "4.4.4.4", none, "/polls"⟩ 7 ⟨none, none, false⟩
        c9FullStore).1 = tooManyResponse ∧
    checkRateLimit "1.2.3.4" (RATE_LIMIT_WINDOW + 6) c9OneStore =
      (true, setRecord c9OneStore "1.2.3.4"
        ⟨1, RATE_LIMIT_WINDOW + 6 + RATE_LIMIT_WINDOW⟩) :=
  ⟨C9_fixed_window_rate_limit.1 "1.2.3.4" 5 (List.replicate 100 5) emptyStore
      rfl (by decide) (by decide),
   C9_fixed_window_rate_limit.2.1 ⟨some "4.4.4.4", none, "/polls"⟩ 7
      ⟨none, none, false⟩ c9FullStore (by decide),
   C9_fixed_window_rate_limit.2.2 "1.2.3.4" (RATE_LIMIT_WINDOW + 6)
      c9OneStore ⟨57, 5 + RATE_LIMIT_WINDOW⟩ rfl (by decide)⟩

end AlxPolly
